import Mathlib

/-!
Shallow embedding of the vehicle-dynamics and track-interaction core of the
3D-Racing repository (exact-rational semantics for JavaScript numbers).

Transcendental functions (`Math.sin`, `Math.cos`, `Math.tan`, `Math.atan2`,
`Math.asin`, `Math.sqrt`, `Math.PI`) are kept abstract in a `MathOps`
parameter: every definition is a faithful transcription of the source with
those operations as oracles, and theorems assume only properties that the
real functions satisfy at the points where they are used.
-/

namespace Racing

/-- Babylon `Vector3` restricted to the fields the simulation core uses. -/
structure Vec3 where
  x : ℚ
  y : ℚ
  z : ℚ
deriving DecidableEq, Repr

def Vec3.add (a b : Vec3) : Vec3 := ⟨a.x + b.x, a.y + b.y, a.z + b.z⟩

def Vec3.sub (a b : Vec3) : Vec3 := ⟨a.x - b.x, a.y - b.y, a.z - b.z⟩

def Vec3.scale (a : Vec3) (k : ℚ) : Vec3 := ⟨a.x * k, a.y * k, a.z * k⟩

def Vec3.dot (a b : Vec3) : ℚ := a.x * b.x + a.y * b.y + a.z * b.z

/-- Squared euclidean norm; `Vector3.length()` in the source is the real
square root of this quantity. -/
def Vec3.normSq (a : Vec3) : ℚ := a.x * a.x + a.y * a.y + a.z * a.z

/-- Oracle bundle for JavaScript `Math` operations whose exact values are
irrational.  `pi` stands for `Math.PI`. -/
structure MathOps where
  sin : ℚ → ℚ
  cos : ℚ → ℚ
  tan : ℚ → ℚ
  atan2 : ℚ → ℚ → ℚ
  asin : ℚ → ℚ
  sqrt : ℚ → ℚ
  pi : ℚ

/-- JavaScript `Math.sign`. -/
def jsign (q : ℚ) : ℚ := if 0 < q then 1 else if q < 0 then -1 else 0

/-- A concrete `MathOps` instance used to instantiate theorems at inputs
where the abstract operations are only consulted at arguments with rational
values (for example `sin 0`, `cos 0`, `sqrt 25`). -/
def stubOps : MathOps where
  sin := fun _ => 0
  cos := fun _ => 1
  tan := fun _ => 0
  atan2 := fun _ _ => 0
  asin := fun _ => 0
  sqrt := fun q => if q = 25 then 5 else if q = 400 then 20 else if q = 10000 then 100 else max q 1
  pi := 355 / 113

/-- `CarSimParams` from `src/game/sim/CarSim.ts`. -/
structure CarSimParams where
  wheelbase : ℚ
  maxSteerRad : ℚ
  engineAccel : ℚ
  brakeDecel : ℚ
  drag : ℚ
  rolling : ℚ
  lateralGrip : ℚ
  handbrakeGripScale : ℚ
  offroadGripScale : ℚ
  offroadDragScale : ℚ
  maxSpeed : ℚ
deriving DecidableEq, Repr

/-- The tuning constants passed to `new CarSim({...})` in `src/game/Game.ts`. -/
def gameParams : CarSimParams where
  wheelbase := 2.65
  maxSteerRad := 0.55
  engineAccel := 21.5
  brakeDecel := 34.0
  drag := 0.012
  rolling := 0.45
  lateralGrip := 19.0
  handbrakeGripScale := 0.35
  offroadGripScale := 0.85
  offroadDragScale := 1.2
  maxSpeed := 88

/-- `GroundInfo` consumed by `CarSim.update`.  `rampAngle = 0` encodes both
the number `0` and javascript `undefined`: the launch test
`ground.rampAngle && ...` treats the two identically (falsy). -/
structure GroundInfo where
  height : ℚ
  normal : Vec3
  onRamp : Bool
  atRampEdge : Bool
  rampDirection : Vec3
  rampAngle : ℚ
deriving DecidableEq, Repr

/-- The per-tick input sample `{throttle, brake, handbrake, steer}`. -/
structure Input where
  throttle : ℚ
  brake : ℚ
  handbrake : ℚ
  steer : ℚ
deriving DecidableEq, Repr

/-- Surface classification result `{grip, dragScale}`. -/
structure Surface where
  grip : ℚ
  dragScale : ℚ
deriving DecidableEq, Repr

/-- The mutable fields of the `CarSim` class. -/
structure CarState where
  position : Vec3
  velocity : Vec3
  yawRad : ℚ
  pitchRad : ℚ
  isAirborne : Bool
  airTime : ℚ
  nitroBoostMultiplier : ℚ
  nitroBoostTimeRemaining : ℚ
  steerSmoothed : ℚ
  prevVelocity : Vec3
  accelWorld : Vec3
  accelLongMps2 : ℚ
  accelLatMps2 : ℚ
  forwardVec : Vec3
  rightVec : Vec3
deriving DecidableEq, Repr

/-- `CarSim`'s constructor / `reset()` state (position `(0, 0.55, 0)`,
basis `forward=(0,0,1)`, `right=(1,0,0)`). -/
def resetState : CarState where
  position := ⟨0, 0.55, 0⟩
  velocity := ⟨0, 0, 0⟩
  yawRad := 0
  pitchRad := 0
  isAirborne := false
  airTime := 0
  nitroBoostMultiplier := 1
  nitroBoostTimeRemaining := 0
  steerSmoothed := 0
  prevVelocity := ⟨0, 0, 0⟩
  accelWorld := ⟨0, 0, 0⟩
  accelLongMps2 := 0
  accelLatMps2 := 0
  forwardVec := ⟨0, 0, 1⟩
  rightVec := ⟨1, 0, 0⟩

/-- `forwardSpeedMps` getter: `Vector3.Dot(velocity, forwardVec)`. -/
def forwardSpeedMps (st : CarState) : ℚ := st.velocity.dot st.forwardVec

/-- The nitro-timer bookkeeping at the top of `CarSim.update`. -/
def nitroTick (dt : ℚ) (st : CarState) : CarState :=
  if 0 < st.nitroBoostTimeRemaining then
    let t := st.nitroBoostTimeRemaining - dt
    if t ≤ 0 then { st with nitroBoostTimeRemaining := 0, nitroBoostMultiplier := 1 }
    else { st with nitroBoostTimeRemaining := t }
  else st

/-- The velocity the grounded branch decomposes: on a landing tick
(`wasAirborne && airTime > 0.1`) the vertical component has just been
zeroed. -/
def landedVelocity (st : CarState) : Vec3 :=
  if st.isAirborne = true ∧ 0.1 < st.airTime then { st.velocity with y := 0 } else st.velocity

/-- Steering smoothing of the grounded branch (`steerRate = 10`). -/
def groundedSteer (dt : ℚ) (input : Input) (st : CarState) : ℚ :=
  st.steerSmoothed + (max (-1) (min 1 input.steer) - st.steerSmoothed) * min 1 (10 * dt)

/-- Grip under handbrake, `surface.grip * (1 - handbrake*(1 - handbrakeGripScale))`. -/
def gripOf (p : CarSimParams) (input : Input) (surface : Surface) : ℚ :=
  surface.grip * (1 - input.handbrake * (1 - p.handbrakeGripScale))

/-- Yaw after the bicycle-model integration of the grounded branch. -/
def groundedYaw (ops : MathOps) (p : CarSimParams) (dt : ℚ) (input : Input)
    (surface : Surface) (st : CarState) : ℚ :=
  let vF := (landedVelocity st).dot ⟨ops.sin st.yawRad, 0, ops.cos st.yawRad⟩
  let steerAngle := groundedSteer dt input st * p.maxSteerRad
  let yawRate := vF / max 0.001 p.wheelbase * ops.tan steerAngle * gripOf p input surface
  st.yawRad + yawRate * dt

/-- The post-acceleration forward speed `vF2` of the grounded branch of
`CarSim.update` (lines 154–199 of `src/game/sim/CarSim.ts`), recomputed from
a state to which the nitro-timer update has already been applied.  The
landing `velocity.y = 0` write is folded in because it precedes the
decomposition in the source. -/
def groundedVF2 (ops : MathOps) (p : CarSimParams) (dt : ℚ) (input : Input)
    (surface : Surface) (st : CarState) : ℚ :=
  let vF := (landedVelocity st).dot ⟨ops.sin st.yawRad, 0, ops.cos st.yawRad⟩
  let speed := |vF|
  let isReversing := vF < 2 ∧ 0 < input.brake ∧ input.throttle = 0
  let longA :=
    if isReversing then
      let reverseAccel := p.engineAccel * 0.4
      let l := -(input.brake * reverseAccel)
      if vF < -15 then max 0 l else l
    else
      let lowSpeedBoost := if speed < 3 ∧ surface.grip < 1 then 1.3 else 1
      let engineA := input.throttle * p.engineAccel * st.nitroBoostMultiplier * lowSpeedBoost
      let brakeA := input.brake * p.brakeDecel
      engineA - (if 0 < vF then brakeA else -brakeA)
  let dragReduction := if speed < 2 then 0.5 else 1
  let dragA := (p.drag * speed * speed + p.rolling * speed) * dragReduction
  let dragSigned := if 0.1 < speed then dragA * jsign vF else 0
  let aLong := longA - dragSigned * surface.dragScale
  vF + aLong * dt

/-- The ramp-launch condition of the grounded branch:
`ground.onRamp && ground.atRampEdge && ground.rampAngle && vF2 > 8`
(`rampAngle` truthy means nonzero). -/
def launchCond (ops : MathOps) (p : CarSimParams) (dt : ℚ) (input : Input)
    (surface : Surface) (ground : GroundInfo) (st : CarState) : Prop :=
  ground.onRamp = true ∧ ground.atRampEdge = true ∧ ground.rampAngle ≠ 0 ∧
    8 < groundedVF2 ops p dt input surface st

instance (ops : MathOps) (p : CarSimParams) (dt : ℚ) (input : Input)
    (surface : Surface) (ground : GroundInfo) (st : CarState) :
    Decidable (launchCond ops p dt input surface ground st) := by
  unfold launchCond; infer_instance

/-- The airborne branch of `CarSim.update` (state passed in after the
nitro-timer update; gravity constant is `25`). -/
def airborneStep (ops : MathOps) (dt : ℚ) (input : Input) (st : CarState) : CarState :=
  let airTime1 := st.airTime + dt
  let vel1 := { st.velocity with y := st.velocity.y - 25 * dt }
  let steerTarget := max (-1) (min 1 input.steer) * 0.2
  let steer1 := st.steerSmoothed + (steerTarget - st.steerSmoothed) * min 1 (2 * dt)
  let yaw1 := st.yawRad + steer1 * 0.5 * dt
  let fwd1 : Vec3 := ⟨ops.sin yaw1, 0, ops.cos yaw1⟩
  let rgt1 : Vec3 := ⟨ops.cos yaw1, 0, -(ops.sin yaw1)⟩
  let pos1 := st.position.add (vel1.scale dt)
  let targetPitch := -vel1.y * 0.02
  let pitch1 := st.pitchRad + (targetPitch - st.pitchRad) * min 1 (3 * dt)
  { st with position := pos1, velocity := vel1, yawRad := yaw1, pitchRad := pitch1,
            isAirborne := true, airTime := airTime1, steerSmoothed := steer1,
            forwardVec := fwd1, rightVec := rgt1 }

/-- The lateral speed `vR2 = vR + aLat*dt` of the grounded branch
(slip-angle model). -/
def groundedVR2 (ops : MathOps) (p : CarSimParams) (dt : ℚ) (input : Input)
    (surface : Surface) (st : CarState) : ℚ :=
  let vF := (landedVelocity st).dot ⟨ops.sin st.yawRad, 0, ops.cos st.yawRad⟩
  let vR := (landedVelocity st).dot ⟨ops.cos st.yawRad, 0, -(ops.sin st.yawRad)⟩
  let speed := |vF|
  let slipAngle := ops.atan2 vR (|vF| + 1)
  let aLat := -slipAngle * p.lateralGrip * gripOf p input surface * min 1 (0.25 + speed / 14)
  vR + aLat * dt

/-- The recombined world velocity `forward*vF2 + right*vR2` of the grounded
branch, in the basis of the freshly integrated yaw. -/
def groundedTmpVel (ops : MathOps) (p : CarSimParams) (dt : ℚ) (input : Input)
    (surface : Surface) (st : CarState) : Vec3 :=
  let yaw1 := groundedYaw ops p dt input surface st
  ((⟨ops.sin yaw1, 0, ops.cos yaw1⟩ : Vec3).scale (groundedVF2 ops p dt input surface st)).add
    ((⟨ops.cos yaw1, 0, -(ops.sin yaw1)⟩ : Vec3).scale (groundedVR2 ops p dt input surface st))

/-- The speed clamp `if (len > max) scale(max/len)`, transcribed by the
equivalent squared comparison `max*max < |v|²` (the two agree whenever
`max ≥ 0`, which holds for every constructed parameter set); the scale
factor itself uses the abstract square root. -/
def clampVel (ops : MathOps) (v : Vec3) (m : ℚ) : Vec3 :=
  if m * m < v.normSq then v.scale (m / ops.sqrt v.normSq) else v

/-- The nitro-scaled top speed `maxSpeed * (nitroBoostMultiplier > 1 ? 1.5 : 1)`. -/
def nitroMax (p : CarSimParams) (st : CarState) : ℚ :=
  p.maxSpeed * (if 1 < st.nitroBoostMultiplier then 1.5 else 1)

/-- The velocity written by the grounded branch: clamp, then overwrite the
vertical component — launch velocity at a ramp edge, zero otherwise (the
source has separate but identical `else if (ground.onRamp)` and `else`
writes of zero). -/
def groundedVelocity (ops : MathOps) (p : CarSimParams) (dt : ℚ) (input : Input)
    (surface : Surface) (ground : GroundInfo) (st : CarState) : Vec3 :=
  let tmpVel1 := clampVel ops (groundedTmpVel ops p dt input surface st) (nitroMax p st)
  if launchCond ops p dt input surface ground st then
    { tmpVel1 with y := max (groundedVF2 ops p dt input surface st * ops.sin ground.rampAngle * 0.55) 3 }
  else if ground.onRamp = true then { tmpVel1 with y := 0 }
  else { tmpVel1 with y := 0 }

/-- The grounded branch of `CarSim.update` (state passed in after the
nitro-timer update; `wasAirborne` is the incoming `isAirborne` flag),
assembled from the components above: steering smoothing, yaw integration,
longitudinal/lateral acceleration, clamp, ramp launch, position integration
with ground clamping, and pitch easing. -/
def groundedStep (ops : MathOps) (p : CarSimParams) (dt : ℚ) (input : Input)
    (surface : Surface) (ground : GroundInfo) (st : CarState) : CarState :=
  let vel1 := groundedVelocity ops p dt input surface ground st
  let yaw1 := groundedYaw ops p dt input surface st
  let pos1 := st.position.add (vel1.scale dt)
  let pos2 := { pos1 with y := max (ground.height + 0.55) pos1.y }
  let pitch1 :=
    if ground.onRamp = true then
      st.pitchRad + (-(ops.asin ground.normal.z) - st.pitchRad) * min 1 (8 * dt)
    else st.pitchRad + (0 - st.pitchRad) * min 1 (5 * dt)
  { st with position := pos2, velocity := vel1, yawRad := yaw1, pitchRad := pitch1,
            isAirborne := if launchCond ops p dt input surface ground st then true else false,
            airTime := 0, steerSmoothed := groundedSteer dt input st,
            forwardVec := ⟨ops.sin yaw1, 0, ops.cos yaw1⟩,
            rightVec := ⟨ops.cos yaw1, 0, -(ops.sin yaw1)⟩ }

/-- The acceleration-telemetry epilogue of `CarSim.update`. -/
def accelTick (dt : ℚ) (st : CarState) : CarState :=
  if 1 / 1000000 < dt then
    let aw0 := (st.velocity.sub st.prevVelocity).scale (1 / dt)
    let aw := { aw0 with y := 0 }
    { st with accelWorld := aw, accelLongMps2 := aw.dot st.forwardVec,
              accelLatMps2 := aw.dot st.rightVec, prevVelocity := st.velocity }
  else
    { st with accelWorld := ⟨0, 0, 0⟩, accelLongMps2 := 0, accelLatMps2 := 0 }

/-- `CarSim.update(dt, input, surface, ground)` from `src/game/sim/CarSim.ts`:
nitro timer, airborne/grounded dispatch on
`position.y > ground.height + carHeight + 0.1` (carHeight `0.55`), then the
acceleration telemetry. -/
def CarSim.update (ops : MathOps) (p : CarSimParams) (dt : ℚ) (input : Input)
    (surface : Surface) (ground : GroundInfo) (st : CarState) : CarState :=
  let st1 := nitroTick dt st
  if ground.height + 0.55 + 0.1 < st1.position.y then
    accelTick dt (airborneStep ops dt input st1)
  else
    accelTick dt (groundedStep ops p dt input surface ground st1)

/-- Truncation toward zero, as JavaScript division underlying `%` uses. -/
def jtrunc (q : ℚ) : ℤ := if 0 ≤ q then ⌊q⌋ else ⌈q⌉

/-- JavaScript remainder `a % b` (truncated division).  The source only
applies it with modulus `2 * Math.PI`, which is nonzero. -/
def jsRem (a b : ℚ) : ℚ := a - b * (jtrunc (a / b) : ℚ)

/-- Babylon `Vector3.normalize()`: divide by the euclidean length (taken
through the abstract square root; a zero vector is left unchanged). -/
def normalizeV (ops : MathOps) (v : Vec3) : Vec3 :=
  let len := ops.sqrt v.normSq
  if len = 0 then v else v.scale (1 / len)

/-- `RampInfo` from `src/game/track/Ramps.ts`. -/
structure RampInfo where
  position : Vec3
  rotation : ℚ
  width : ℚ
  length : ℚ
  height : ℚ
deriving DecidableEq, Repr

/-- The record returned by `RampSystem.getHeightAt`. -/
structure RampQuery where
  height : ℚ
  normal : Vec3
  onRamp : Bool
  sideCollision : Bool
  atRampEdge : Bool
  rampDirection : Vec3
  rampAngle : ℚ
deriving DecidableEq, Repr

/-- Ramp-local x coordinate of a query point (rotate by `-ramp.rotation`). -/
def rampLocalX (ops : MathOps) (r : RampInfo) (pos : Vec3) : ℚ :=
  (pos.x - r.position.x) * ops.cos (-r.rotation) - (pos.z - r.position.z) * ops.sin (-r.rotation)

/-- Ramp-local z coordinate of a query point. -/
def rampLocalZ (ops : MathOps) (r : RampInfo) (pos : Vec3) : ℚ :=
  (pos.x - r.position.x) * ops.sin (-r.rotation) + (pos.z - r.position.z) * ops.cos (-r.rotation)

/-- Longitudinal parameter along the ramp: `t = (localZ + hl) / ramp.length`
(back `t=0`, front `t=1`). -/
def rampT (ops : MathOps) (r : RampInfo) (pos : Vec3) : ℚ :=
  (rampLocalZ ops r pos + r.length / 2) / r.length

/-- The `approachingCorrectly` heading test of `RampSystem.getHeightAt`:
the car direction relative to the ramp, normalised into `[0, 2π)`, must be
within `π/3` of the ramp forward direction. -/
def rampApproachOk (ops : MathOps) (r : RampInfo) (carYaw : ℚ) : Prop :=
  let carDir := carYaw - r.rotation
  let normalizedDir := jsRem (jsRem carDir (ops.pi * 2) + ops.pi * 2) (ops.pi * 2)
  normalizedDir < ops.pi / 3 ∨ ops.pi * 5 / 3 < normalizedDir

instance (ops : MathOps) (r : RampInfo) (carYaw : ℚ) :
    Decidable (rampApproachOk ops r carYaw) := by
  unfold rampApproachOk; infer_instance

/-- The per-ramp body of the loop in `RampSystem.getHeightAt`
(`src/game/track/Ramps.ts`): `none` when the point is outside this ramp's
footprint and barrier band, otherwise the returned record. -/
def rampQueryOne (ops : MathOps) (r : RampInfo) (pos : Vec3) (carYaw : ℚ) :
    Option RampQuery :=
  let localX := rampLocalX ops r pos
  let localZ := rampLocalZ ops r pos
  let hw := r.width / 2
  let hl := r.length / 2
  let withinLength := -hl ≤ localZ ∧ localZ ≤ hl
  let withinWidth := |localX| ≤ hw
  let hittingSide := withinLength ∧ hw < |localX| ∧ |localX| ≤ hw + 0.5
  if hittingSide then
    some { height := 0, normal := ⟨if 0 < localX then 1 else -1, 0, 0⟩,
           onRamp := false, sideCollision := true, atRampEdge := false,
           rampDirection := ⟨0, 0, 1⟩, rampAngle := 0 }
  else if withinWidth ∧ withinLength then
    let t := rampT ops r pos
    let approachingCorrectly := rampApproachOk ops r carYaw
    if 0 < localZ ∧ ¬approachingCorrectly ∧ 0.5 < t then
      some { height := 0, normal := ⟨0, 0, 1⟩,
             onRamp := false, sideCollision := true, atRampEdge := false,
             rampDirection := ⟨0, 0, 1⟩, rampAngle := 0 }
    else
      let slopeAngle := ops.atan2 r.height r.length
      let ny := ops.cos slopeAngle
      let nzLocal := -(ops.sin slopeAngle)
      some { height := t * r.height,
             normal := normalizeV ops ⟨nzLocal * ops.sin r.rotation, ny, nzLocal * ops.cos r.rotation⟩,
             onRamp := true, sideCollision := false,
             atRampEdge := decide (0.85 < t) && decide approachingCorrectly,
             rampDirection := ⟨ops.sin r.rotation, 0, ops.cos r.rotation⟩,
             rampAngle := slopeAngle }
  else none

/-- `RampSystem.getHeightAt(pos, carYaw)`: first matching ramp wins; the
fall-through result is flat ground. -/
def rampGetHeightAt (ops : MathOps) (ramps : List RampInfo) (pos : Vec3) (carYaw : ℚ) :
    RampQuery :=
  match ramps with
  | [] => { height := 0, normal := ⟨0, 1, 0⟩, onRamp := false, sideCollision := false,
            atRampEdge := false, rampDirection := ⟨0, 0, 1⟩, rampAngle := 0 }
  | r :: rest =>
    match rampQueryOne ops r pos carYaw with
    | some q => q
    | none => rampGetHeightAt ops rest pos carYaw

/-- `easeInOutCubic` as written in `src/game/track/Bridge.ts`
(`t < 0.5 ? 4t³ : 1 - (-2t+2)³/2`).  `RampSystem` does not use it. -/
def easeInOutCubic (t : ℚ) : ℚ :=
  if t < 0.5 then 4 * t * t * t else 1 - (-2 * t + 2) ^ 3 / 2

/-- `HillInfo` from `src/game/track/Terrain.ts`. -/
structure HillInfo where
  x : ℚ
  z : ℚ
  radius : ℚ
  height : ℚ
deriving DecidableEq, Repr

/-- The `TERRAIN_HILLS` placement table. -/
def TERRAIN_HILLS : List HillInfo :=
  [⟨40, 65, 25, 2.5⟩, ⟨-40, 65, 20, 2.0⟩, ⟨70, 0, 30, 3.0⟩, ⟨-70, -20, 25, 2.5⟩,
   ⟨0, -60, 35, 2.8⟩, ⟨50, -55, 22, 2.2⟩, ⟨-30, 30, 15, 1.2⟩, ⟨60, 40, 18, 1.5⟩,
   ⟨-60, 50, 20, 1.8⟩, ⟨30, -30, 16, 1.3⟩]

/-- The `noise2D` pseudo-noise of `src/game/track/Terrain.ts`. -/
def noise2D (ops : MathOps) (x z seed : ℚ) : ℚ :=
  ops.sin (x * 0.1 + seed) * ops.cos (z * 0.12 + seed * 0.7) +
    ops.sin (x * 0.05 + z * 0.08 + seed * 1.3) * 0.5 +
    ops.sin (x * 0.02 + z * 0.03) * 0.3

/-- One hill's contribution inside `getTerrainHeight`'s loop. -/
def hillContribution (ops : MathOps) (x z : ℚ) (hill : HillInfo) : ℚ :=
  let dist := ops.sqrt ((x - hill.x) * (x - hill.x) + (z - hill.z) * (z - hill.z))
  if dist < hill.radius then
    hill.height * (ops.cos (dist / hill.radius * ops.pi) + 1) * 0.5
  else 0

/-- `getTerrainHeight(x, z, trackHalfWidth)` from `src/game/track/Terrain.ts`
(the `trackHalfWidth` parameter is unused by the function body). -/
def getTerrainHeight (ops : MathOps) (x z : ℚ) (_trackHalfWidth : ℚ) : ℚ :=
  let height := (TERRAIN_HILLS.map (hillContribution ops x z)).sum + noise2D ops x z 42 * 0.3
  max 0 height

/-- The `ProjectionRef` record of `src/game/track/Track.ts`. -/
structure ProjectionRef where
  closest : Vec3
  normal : Vec3
  distance : ℚ
  s : ℚ
deriving DecidableEq, Repr

/-- The cumulative-arclength array built by the `Track` constructor:
`cumulative = [0]`, then for each segment `len += Distance(p[i], p[i+1])`
(3-D distance) and `cumulative.push(len)`. -/
def cumulativeOf (ops : MathOps) : List Vec3 → ℚ → List ℚ
  | [], _ => []
  | [_], len => [len]
  | a :: b :: rest, len => len :: cumulativeOf ops (b :: rest) (len + ops.sqrt ((b.sub a).normSq))

/-- Immutable `Track` data: centerline polyline, half-width, cumulative
arclengths, total length.  -/
structure TrackGeom where
  centerline : List Vec3
  halfWidth : ℚ
  cumulative : List ℚ
  totalLength : ℚ
deriving DecidableEq, Repr

/-- The `Track(centerline, halfWidth)` constructor. -/
def mkTrack (ops : MathOps) (centerline : List Vec3) (halfWidth : ℚ) : TrackGeom :=
  let cumulative := cumulativeOf ops centerline 0
  { centerline := centerline, halfWidth := halfWidth, cumulative := cumulative,
    totalLength := cumulative.getLastD 0 }

/-- One candidate of `Track.projectToRef`'s segment scan: squared distance,
closest point, normal, and arclength for the segment from `a` to `b` whose
cumulative start arclength is `cum`. -/
def segmentCandidate (ops : MathOps) (pos a b : Vec3) (cum : ℚ) : ℚ × Vec3 × Vec3 × ℚ :=
  let abx := b.x - a.x
  let abz := b.z - a.z
  let apx := pos.x - a.x
  let apz := pos.z - a.z
  let abLen2 := max (1 / 1000000) (abx * abx + abz * abz)
  let t := max 0 (min 1 ((apx * abx + apz * abz) / abLen2))
  let cx := a.x + abx * t
  let cz := a.z + abz * t
  let dx := pos.x - cx
  let dz := pos.z - cz
  let dist2 := dx * dx + dz * dz
  let normal :=
    if dist2 < 1 / 1000000 then
      -- on-the-line fallback: perpendicular of the segment; the source's
      -- `Math.hypot(nx, nz) || 1` is the euclidean length, replaced by 1 when zero
      let nx := abz
      let nz := -abx
      let h := ops.sqrt (nx * nx + nz * nz)
      let nLen := if h = 0 then 1 else h
      (⟨nx / nLen, 0, nz / nLen⟩ : Vec3)
    else
      Vec3.scale ⟨dx, 0, dz⟩ (1 / ops.sqrt dist2)
  (dist2, ⟨cx, 0, cz⟩, normal, cum + ops.sqrt abLen2 * t)

/-- The minimum-distance scan of `Track.projectToRef`: strict improvement
(`dist2 < bestDist2`) starting from `+Infinity` (encoded as `none`). -/
def projectLoop (ops : MathOps) (pos : Vec3) :
    List Vec3 → List ℚ → Option (ℚ × Vec3 × Vec3 × ℚ) → Option (ℚ × Vec3 × Vec3 × ℚ)
  | a :: b :: rest, cum :: cums, best =>
    let cand := segmentCandidate ops pos a b cum
    let best' :=
      match best with
      | none => some cand
      | some old => if cand.1 < old.1 then some cand else some old
    projectLoop ops pos (b :: rest) cums best'
  | _, _, best => best

/-- `Track.projectToRef(pos, out)` (`src/game/track/Track.ts`).  A track
with no segment leaves the scratch record untouched in the source; here that
unreachable case yields a zero record. -/
def projectToRef (ops : MathOps) (tr : TrackGeom) (pos : Vec3) : ProjectionRef :=
  match projectLoop ops pos tr.centerline tr.cumulative none with
  | some (bestDist2, c, n, bestS) => ⟨c, n, ops.sqrt bestDist2, bestS⟩
  | none => ⟨⟨0, 0, 0⟩, ⟨0, 0, 0⟩, 0, 0⟩

/-- `Track.surfaceAt(pos)`: the projection and `onTrack = distance ≤ halfWidth`. -/
def surfaceAt (ops : MathOps) (tr : TrackGeom) (pos : Vec3) : ProjectionRef × Bool :=
  let p := projectToRef ops tr pos
  (p, decide (p.distance ≤ tr.halfWidth))

/-- The lap-tracking state of `createGame` (`src/game/Game.ts`):
`lapStartMs`, `lastS`, `laps`, `bestLapSeconds`. -/
structure LapState where
  lapStartMs : ℚ
  lastS : ℚ
  laps : ℕ
  bestLapSeconds : Option ℚ
deriving DecidableEq, Repr

/-- The lap-detection block of `tickSim` (`src/game/Game.ts`): wraparound
`lastS > 0.65L ∧ s < 0.35L` while `forwardSpeed > 4`; a wrap counts only
when the elapsed lap time exceeds 5 seconds; `lastS` is always updated. -/
def lapTick (totalLength : ℚ) (st : LapState) (s fwd now : ℚ) : LapState :=
  let wrappedForward := totalLength * 0.65 < st.lastS ∧ s < totalLength * 0.35
  let movingForward := 4 < fwd
  if wrappedForward ∧ movingForward then
    let lapSeconds := (now - st.lapStartMs) / 1000
    if 5 < lapSeconds then
      { lapStartMs := now, lastS := s, laps := st.laps + 1,
        bestLapSeconds :=
          match st.bestLapSeconds with
          | none => some lapSeconds
          | some b => if lapSeconds < b then some lapSeconds else some b }
    else { st with lastS := s }
  else { st with lastS := s }

/-- The barrier-collision response of `tickSim` (`src/game/Game.ts`): push
the position out along `normal * (penetration + 0.1)`; when the velocity
opposes the normal, reflect with restitution `0.3` and scale by friction
`0.7`.  Returns (position, velocity). -/
def applyBarrierBounce (normal : Vec3) (penetration : ℚ) (pos vel : Vec3) : Vec3 × Vec3 :=
  let pos1 := pos.add (normal.scale (penetration + 0.1))
  let bounceAmount := vel.dot normal
  if bounceAmount < 0 then
    let restitution : ℚ := 0.3
    let friction : ℚ := 0.7
    (pos1, (vel.add (normal.scale (-bounceAmount * (1 + restitution)))).scale friction)
  else (pos1, vel)

/-- The ramp/bridge side-collision response of `tickSim`
(`src/game/Game.ts`): when the velocity opposes the barrier normal,
`velocity += normal * (-vn * 1.5)` then `velocity *= 0.6`; the position is
not moved. -/
def applySideBounce (normal : Vec3) (vel : Vec3) : Vec3 :=
  let vn := vel.dot normal
  if vn < 0 then (vel.add (normal.scale (-vn * 1.5))).scale 0.6 else vel

/-- The `while (accumulator >= stepSize)` loop of `FixedTimestep.step`
(`src/game/loop/FixedTimestep.ts`), returning the list of `dt` arguments
passed to `tick` and the final accumulator.  The guard `0 < stepSize`
(always true of the constructed `1/120` scheduler) makes the loop
terminating; with a nonpositive step the source loop would not terminate. -/
def runLoop (stepSize : ℚ) (acc : ℚ) : List ℚ × ℚ :=
  if h : 0 < stepSize ∧ stepSize ≤ acc then
    let r := runLoop stepSize (acc - stepSize)
    (stepSize :: r.1, r.2)
  else ([], acc)
termination_by (⌈acc / stepSize⌉).toNat
decreasing_by
  have hs := h.1
  have ha := h.2
  have h1 : (1 : ℚ) ≤ acc / stepSize := (one_le_div hs).mpr ha
  have h2 : (acc - stepSize) / stepSize = acc / stepSize - 1 := by
    field_simp
  have h3 : (1 : ℤ) ≤ ⌈acc / stepSize⌉ := by
    have := Int.ceil_mono h1
    simpa using this
  have h4 : ⌈(acc - stepSize) / stepSize⌉ = ⌈acc / stepSize⌉ - 1 := by
    rw [h2]
    exact_mod_cast Int.ceil_sub_int (acc / stepSize) 1
  omega

/-- `FixedTimestep.step(deltaSeconds, tick)`: the added delta is clamped to
at most `0.1` seconds, then the fixed-step loop runs. -/
def fixedStep (stepSize acc delta : ℚ) : List ℚ × ℚ :=
  runLoop stepSize (acc + min delta 0.1)

/-- The all-zero input sample. -/
def zeroInput : Input := ⟨0, 0, 0, 0⟩

/-- The on-track surface `{grip: 1.0, dragScale: 1.0}` from `tickSim`. -/
def onTrackSurface : Surface := ⟨1, 1⟩

/-- Flat ground: the default `GroundInfo` (height 0, up normal, no ramp). -/
def flatGround : GroundInfo := ⟨0, ⟨0, 1, 0⟩, false, false, ⟨0, 0, 1⟩, 0⟩

/-- The 1-D forward-speed recurrence realised by the grounded branch under
zero input on flat on-track ground with the `gameParams` tuning and the
`1/120` fixed step (throttle = brake = 0 gives `longA = 0`; only the drag
term remains). -/
def dragStep (v : ℚ) : ℚ :=
  v + (0 - (if 0.1 < |v| then
      (gameParams.drag * |v| * |v| + gameParams.rolling * |v|) *
        (if |v| < 2 then 0.5 else 1) * jsign v
    else 0) * 1) * (1 / 120)

/-- Iterate of `dragStep` starting from forward speed 20. -/
def dragIter (n : ℕ) : ℚ := dragStep^[n] 20

/-- Initial state for the drag-monotonicity scenario: the reset pose moving
forward at 20 m/s. -/
def c5Init : CarState := { resetState with velocity := ⟨0, 0, 20⟩ }

/-- The drag-monotonicity trajectory: repeated `CarSim.update` ticks with
zero input, on-track surface and flat ground. -/
def c5Traj (ops : MathOps) (n : ℕ) : CarState :=
  (CarSim.update ops gameParams (1 / 120) zeroInput onTrackSurface flatGround)^[n] c5Init

/-- The per-state invariant of the drag scenario: the fields of the car
state that feed back into the forward speed. -/
def C5Shape (st : CarState) (v : ℚ) : Prop :=
  st.velocity = ⟨0, 0, v⟩ ∧ st.yawRad = 0 ∧ st.steerSmoothed = 0 ∧
    st.position.y = 0.55 ∧ st.isAirborne = false ∧ st.airTime = 0 ∧
    st.nitroBoostMultiplier = 1 ∧ st.nitroBoostTimeRemaining = 0 ∧
    st.forwardVec = ⟨0, 0, 1⟩ ∧ st.rightVec = ⟨1, 0, 0⟩

/-- State for the speed-invariant counterexample: airborne at height 100,
flying level at exactly `maxSpeed` (88). -/
def c2CexState : CarState :=
  { resetState with position := ⟨0, 100, 0⟩, velocity := ⟨0, 0, 88⟩, isAirborne := true, airTime := 1 }

/-- State for the landing counterexample: previously airborne
(`isAirborne = true`, `airTime = 1`), exactly at ground height, moving
forward at 20 m/s. -/
def c3CexState : CarState :=
  { resetState with velocity := ⟨0, 0, 20⟩, isAirborne := true, airTime := 1 }

/-- Ground info for the landing counterexample: touching down right on a
ramp launch edge (`rampAngle = 0.3`). -/
def c3Ground : GroundInfo := ⟨0, ⟨0, 1, 0⟩, true, true, ⟨0, 0, 1⟩, 0.3⟩

/-- State for the ramp-launch witness scenario: grounded at the ramp edge,
moving forward at 20 m/s. -/
def c6State : CarState := { resetState with velocity := ⟨0, 0, 20⟩ }

/-- The ramp used in the ramp-height-profile scenario: at the origin,
unrotated, `width=8, length=14, height=1.5` (the spec's example ramp). -/
def c1Ramp : RampInfo := ⟨⟨0, 0, 0⟩, 0, 8, 14, 1.5⟩

/-- Query point for the ramp-height scenario: on the ramp centerline at
longitudinal parameter `t = 1/4` (`localZ = -3.5`). -/
def c1Pos : Vec3 := ⟨0, 0, -3.5⟩

/-- The straight two-point centerline `(0,0,0) → (0,0,100)` of the
projection test scenario, as a track with `halfWidth = 8`. -/
def c8Track (ops : MathOps) : TrackGeom := mkTrack ops [⟨0, 0, 0⟩, ⟨0, 0, 100⟩] 8

/-- Expansion of the squared norm of `v + c • n`. -/
theorem add_scale_normSq (v n : Vec3) (c : ℚ) :
    (v.add (n.scale c)).normSq = v.normSq + 2 * c * v.dot n + c ^ 2 * n.normSq := by
  simp only [Vec3.normSq, Vec3.add, Vec3.scale, Vec3.dot]
  ring

/-- Squared norm of a scaled vector. -/
theorem scale_normSq (v : Vec3) (k : ℚ) : (v.scale k).normSq = k ^ 2 * v.normSq := by
  simp only [Vec3.normSq, Vec3.scale]
  ring

/-- Cauchy–Schwarz for the 3-component dot product. -/
theorem dot_sq_le (a b : Vec3) : a.dot b ^ 2 ≤ a.normSq * b.normSq := by
  simp only [Vec3.dot, Vec3.normSq]
  nlinarith [sq_nonneg (a.x * b.y - a.y * b.x), sq_nonneg (a.x * b.z - a.z * b.x),
    sq_nonneg (a.y * b.z - a.z * b.y)]

/-- Claim C10: `getTerrainHeight` never returns a negative value: although
the noise term can be negative away from every hill, the result is clamped
by `Math.max(0, height)`. -/
theorem terrain_height_nonneg (ops : MathOps) (x z w : ℚ) :
    0 ≤ getTerrainHeight ops x z w := by
  unfold getTerrainHeight
  exact le_max_left 0 _

/-- Claim C7: the lap tracker increments the lap count exactly when
`lastS > 0.65L`, `s < 0.35L`, `forwardSpeed > 4` and the elapsed lap time
exceeds 5 seconds together hold; on such a lap it updates the best lap when
improved (or unset) and resets the lap clock; otherwise lap count, clock and
best lap are unchanged; a slow boundary pass never counts; `lastS` is
updated every tick. -/
theorem lap_tracker_correct (L : ℚ) (st : LapState) (s fwd now : ℚ) :
    let st' := lapTick L st s fwd now
    let lapSeconds := (now - st.lapStartMs) / 1000
    let cond := L * 0.65 < st.lastS ∧ s < L * 0.35 ∧ 4 < fwd ∧ 5 < lapSeconds
    (st'.laps = st.laps + 1 ↔ cond) ∧
    st'.lastS = s ∧
    (cond → st'.lapStartMs = now ∧
      st'.bestLapSeconds = (match st.bestLapSeconds with
        | none => some lapSeconds
        | some b => if lapSeconds < b then some lapSeconds else some b)) ∧
    (¬cond → st'.laps = st.laps ∧ st'.lapStartMs = st.lapStartMs ∧
      st'.bestLapSeconds = st.bestLapSeconds) ∧
    (fwd ≤ 4 → st'.laps = st.laps) := by
  simp only [lapTick]
  split_ifs with h1 h2
  · refine ⟨⟨fun _ => ⟨h1.1.1, h1.1.2, h1.2, h2⟩, fun _ => rfl⟩, rfl, fun _ => ⟨rfl, rfl⟩, ?_, ?_⟩
    · intro hc
      exact absurd ⟨h1.1.1, h1.1.2, h1.2, h2⟩ hc
    · intro hf
      exact absurd h1.2 (not_lt.mpr hf)
  · refine ⟨⟨fun h => absurd h (show st.laps ≠ st.laps + 1 by omega), fun hc => absurd hc.2.2.2 h2⟩,
      rfl, fun hc => absurd hc.2.2.2 h2, fun _ => ⟨rfl, rfl, rfl⟩, fun _ => rfl⟩
  · refine ⟨⟨fun h => absurd h (show st.laps ≠ st.laps + 1 by omega), fun hc => absurd ⟨⟨hc.1, hc.2.1⟩, hc.2.2.1⟩ h1⟩,
      rfl, fun hc => absurd ⟨⟨hc.1, hc.2.1⟩, hc.2.2.1⟩ h1, fun _ => ⟨rfl, rfl, rfl⟩, fun _ => rfl⟩

/-- Witness for C7: a concrete wrap (track length 100, `lastS = 70`,
`s = 10`, forward speed 10, elapsed 6 s) increments the lap count. -/
theorem lap_tracker_correct_witness :
    (lapTick 100 ⟨0, 70, 0, none⟩ 10 10 6000).laps = 0 + 1 :=
  (lap_tracker_correct 100 ⟨0, 70, 0, none⟩ 10 10 6000).1.mpr
    (by norm_num)

/-- Counterexample to claim C4: a ramp/bridge side collision is resolved
with reflection factor `1.5` and friction `0.6`, not the barrier resolver's
restitution `0.3` and friction `0.7`: hitting the side barrier
(normal `(1,0,0)`) at velocity `(-10,0,0)` leaves velocity `(3,0,0)`,
whereas the claimed resolver would give `(2.1,0,0)`. -/
theorem collision_resolver_cex :
    applySideBounce ⟨1, 0, 0⟩ ⟨-10, 0, 0⟩ = ⟨3, 0, 0⟩ ∧
    (Vec3.add ⟨-10, 0, 0⟩ (Vec3.scale ⟨1, 0, 0⟩ (-(Vec3.dot ⟨-10, 0, 0⟩ ⟨1, 0, 0⟩) * (1 + 0.3)))).scale 0.7
      = ⟨2.1, 0, 0⟩ ∧
    applySideBounce ⟨1, 0, 0⟩ ⟨-10, 0, 0⟩ ≠
      (Vec3.add ⟨-10, 0, 0⟩ (Vec3.scale ⟨1, 0, 0⟩ (-(Vec3.dot ⟨-10, 0, 0⟩ ⟨1, 0, 0⟩) * (1 + 0.3)))).scale 0.7 := by
  refine ⟨?_, ?_, ?_⟩ <;>
    norm_num [applySideBounce, Vec3.dot, Vec3.add, Vec3.scale, Vec3.mk.injEq]

/-- Claim C4 (amended): for a unit outward normal and an inbound velocity
(`v·n < 0`), the barrier resolver pushes the position out along
`normal * (penetration + 0.1)`, reflects with restitution `0.3` and applies
friction `0.7`, while the ramp/bridge side resolver applies the velocity-only
response `0.6 * (v + (-1.5 (v·n)) n)` (restitution `0.5`, friction `0.6`,
no positional push-out); in both cases the post-collision speed is strictly
smaller than the impact speed. -/
theorem collision_resolver_amended (n pos vel : Vec3) (pen : ℚ)
    (hn : n.normSq = 1) (hv : vel.dot n < 0) :
    (applyBarrierBounce n pen pos vel).1 = pos.add (n.scale (pen + 0.1)) ∧
    (applyBarrierBounce n pen pos vel).2 =
      (vel.add (n.scale (-(vel.dot n) * (1 + 0.3)))).scale 0.7 ∧
    applySideBounce n vel = (vel.add (n.scale (-(vel.dot n) * 1.5))).scale 0.6 ∧
    (applyBarrierBounce n pen pos vel).2.normSq < vel.normSq ∧
    (applySideBounce n vel).normSq < vel.normSq := by
  have hvn2 : 0 < vel.dot n ^ 2 := by nlinarith [hv]
  have hcs : vel.dot n ^ 2 ≤ vel.normSq := by
    have h := dot_sq_le vel n
    rwa [hn, mul_one] at h
  refine ⟨?_, ?_, ?_, ?_, ?_⟩
  · simp [applyBarrierBounce, hv]
  · simp [applyBarrierBounce, hv]
  · simp [applySideBounce, hv]
  · simp only [applyBarrierBounce, if_pos hv]
    rw [scale_normSq, add_scale_normSq, hn]
    nlinarith [hvn2, hcs]
  · simp only [applySideBounce, if_pos hv]
    rw [scale_normSq, add_scale_normSq, hn]
    nlinarith [hvn2, hcs]

/-- Witness for the amended C4 at normal `(1,0,0)`, velocity `(-10,0,0)`,
penetration `0.5`. -/
theorem collision_resolver_amended_witness :
    (Vec3.normSq ⟨1, 0, 0⟩ = 1 ∧ Vec3.dot ⟨-10, 0, 0⟩ ⟨1, 0, 0⟩ < 0) ∧
    (applySideBounce ⟨1, 0, 0⟩ ⟨-10, 0, 0⟩).normSq < Vec3.normSq ⟨-10, 0, 0⟩ :=
  ⟨⟨by norm_num [Vec3.normSq], by norm_num [Vec3.dot]⟩,
    (collision_resolver_amended ⟨1, 0, 0⟩ ⟨0, 0, 0⟩ ⟨-10, 0, 0⟩ (1/2)
      (by norm_num [Vec3.normSq]) (by norm_num [Vec3.dot])).2.2.2.2⟩

/-- Closed form of the fixed-step drain loop: for a positive step and a
nonnegative accumulator it fires `⌊acc/step⌋` ticks of exactly `step` and
leaves `acc - ⌊acc/step⌋ * step`. -/
theorem runLoop_spec (s : ℚ) (hs : 0 < s) :
    ∀ (n : ℕ) (a : ℚ), 0 ≤ a → (⌊a / s⌋).toNat = n →
      runLoop s a = (List.replicate n s, a - ((⌊a / s⌋ : ℤ) : ℚ) * s) := by
  intro n
  induction n with
  | zero =>
    intro a ha h0
    have hfl : ⌊a / s⌋ = 0 := by
      have hnn : 0 ≤ ⌊a / s⌋ := Int.floor_nonneg.mpr (div_nonneg ha hs.le)
      omega
    have hlt : a < s := by
      have h1 : a / s < 1 := by
        have := Int.lt_floor_add_one (a / s)
        rw [hfl] at this
        simpa using this
      calc a = a / s * s := by field_simp
        _ < 1 * s := by exact mul_lt_mul_of_pos_right h1 hs
        _ = s := one_mul s
    rw [runLoop]
    rw [dif_neg (by push_neg; intro _; exact hlt)]
    simp [hfl]
  | succ k ih =>
    intro a ha hk
    have hpos : 1 ≤ ⌊a / s⌋ := by omega
    have hsa : s ≤ a := by
      have h1 : (1 : ℚ) ≤ a / s := by
        calc (1 : ℚ) = ((1 : ℤ) : ℚ) := by norm_num
          _ ≤ ((⌊a / s⌋ : ℤ) : ℚ) := by exact_mod_cast hpos
          _ ≤ a / s := Int.floor_le _
      calc s = 1 * s := (one_mul s).symm
        _ ≤ a / s * s := mul_le_mul_of_nonneg_right h1 hs.le
        _ = a := by field_simp
    have hstep : (a - s) / s = a / s - 1 := by
      field_simp
    have hfl : ⌊(a - s) / s⌋ = ⌊a / s⌋ - 1 := by
      rw [hstep]
      exact_mod_cast Int.floor_sub_int (a / s) 1
    have ih2 := ih (a - s) (by linarith) (by omega)
    rw [runLoop, dif_pos ⟨hs, hsa⟩, ih2]
    simp only [List.replicate_succ, Prod.mk.injEq, true_and]
    push_cast [hfl]
    ring

/-- Claim C9: `FixedTimestep.step` clamps the added delta to at most 0.1 s,
fires the tick function exactly `⌊(acc + min(delta, 0.1)) / stepSize⌋` times
with argument exactly `stepSize`, and leaves `0 ≤ accumulator < stepSize`. -/
theorem fixed_timestep_step_correct (stepSize acc delta : ℚ) (hs : 0 < stepSize)
    (hacc0 : 0 ≤ acc) (hacc : acc < stepSize) (hd : 0 ≤ delta) :
    min delta 0.1 ≤ 0.1 ∧
    (fixedStep stepSize acc delta).1 =
      List.replicate (⌊(acc + min delta 0.1) / stepSize⌋).toNat stepSize ∧
    0 ≤ (fixedStep stepSize acc delta).2 ∧ (fixedStep stepSize acc delta).2 < stepSize := by
  have _ := hacc
  set a := acc + min delta 0.1 with ha_def
  have ha : 0 ≤ a := add_nonneg hacc0 (le_min hd (by norm_num))
  have hspec := runLoop_spec stepSize hs (⌊a / stepSize⌋).toNat a ha rfl
  have hrem : a - ((⌊a / stepSize⌋ : ℤ) : ℚ) * stepSize = stepSize * Int.fract (a / stepSize) := by
    rw [Int.fract]
    field_simp
    ring
  refine ⟨min_le_right _ _, ?_, ?_, ?_⟩
  · rw [fixedStep, hspec]
  · rw [fixedStep, hspec]
    simp only [hrem]
    exact mul_nonneg hs.le (Int.fract_nonneg _)
  · rw [fixedStep, hspec]
    simp only [hrem]
    calc stepSize * Int.fract (a / stepSize) < stepSize * 1 :=
          mul_lt_mul_of_pos_left (Int.fract_lt_one _) hs
      _ = stepSize := mul_one stepSize

/-- Witness for C9: the game's `1/120` scheduler with an empty accumulator
and a 1-second frame fires exactly 12 ticks (`⌊0.1 / (1/120)⌋ = 12`). -/
theorem fixed_timestep_step_correct_witness :
    (fixedStep (1 / 120) 0 1).1 =
      List.replicate (⌊((0 : ℚ) + min 1 0.1) / (1 / 120)⌋).toNat (1 / 120) :=
  (fixed_timestep_step_correct (1 / 120) 0 1 (by norm_num) le_rfl (by norm_num) (by norm_num)).2.1

/-- Claim C8: on the track built from the straight centerline
`(0,0,0) → (0,0,100)` with `halfWidth = 8`, projecting `(5,0,50)` yields
`distance = 5`, `s = 50` and `onTrack = true`, and projecting `(20,0,50)`
yields `distance = 20` and `onTrack = false`.  The abstract square root is
pinned at the three perfect squares the query evaluates it on. -/
theorem projection_example_correct (ops : MathOps)
    (h25 : ops.sqrt 25 = 5) (h400 : ops.sqrt 400 = 20) (h10000 : ops.sqrt 10000 = 100) :
    ((surfaceAt ops (c8Track ops) ⟨5, 0, 50⟩).1.distance = 5 ∧
     (surfaceAt ops (c8Track ops) ⟨5, 0, 50⟩).1.s = 50 ∧
     (surfaceAt ops (c8Track ops) ⟨5, 0, 50⟩).2 = true) ∧
    ((surfaceAt ops (c8Track ops) ⟨20, 0, 50⟩).1.distance = 20 ∧
     (surfaceAt ops (c8Track ops) ⟨20, 0, 50⟩).2 = false) := by
  norm_num [surfaceAt, projectToRef, projectLoop, segmentCandidate, c8Track, mkTrack,
    cumulativeOf, Vec3.sub, Vec3.normSq, Vec3.scale, h25, h400, h10000]

/-- Witness for C8 at the concrete square-root oracle `stubOps`. -/
theorem projection_example_correct_witness :
    (surfaceAt stubOps (c8Track stubOps) ⟨5, 0, 50⟩).1.distance = 5 ∧
    (surfaceAt stubOps (c8Track stubOps) ⟨5, 0, 50⟩).1.s = 50 :=
  ⟨(projection_example_correct stubOps (by norm_num [stubOps]) (by norm_num [stubOps])
      (by norm_num [stubOps])).1.1,
   (projection_example_correct stubOps (by norm_num [stubOps]) (by norm_num [stubOps])
      (by norm_num [stubOps])).1.2.1⟩

/-- Counterexample to claim C1: `RampSystem.getHeightAt` computes a linear
height profile `t * ramp.height`, not the eased profile
`easeInOutCubic(t) * ramp.height`.  For the spec's example ramp
(`length = 14`, `height = 1.5`) queried on the centerline at `t = 1/4`, the
code returns `3/8` while the eased profile would give `3/32`. -/
theorem ramp_height_not_eased_cex :
    (rampGetHeightAt stubOps [c1Ramp] c1Pos 0).height = 3 / 8 ∧
    rampT stubOps c1Ramp c1Pos = 1 / 4 ∧
    easeInOutCubic (1 / 4) * c1Ramp.height = 3 / 32 ∧
    (rampGetHeightAt stubOps [c1Ramp] c1Pos 0).height ≠
      easeInOutCubic (rampT stubOps c1Ramp c1Pos) * c1Ramp.height := by
  norm_num [rampGetHeightAt, rampQueryOne, rampT, rampLocalX, rampLocalZ,
    easeInOutCubic, stubOps, c1Ramp, c1Pos]

/-- Claim C1 (amended): for a query position inside the ramp footprint
(`|localX| ≤ halfWidth`, `localZ ∈ [-halfLength, halfLength]`) that does not
trigger the wrong-way side-collision branch, `RampSystem.getHeightAt` reports
an on-ramp surface whose height is the *linear* profile `t * ramp.height`
with `t = (localZ + halfLength) / length` (the ease-in-out-cubic profile
belongs to the bridge system, not to `RampSystem`). -/
theorem ramp_height_linear (ops : MathOps) (r : RampInfo) (pos : Vec3) (yaw : ℚ)
    (hw : |rampLocalX ops r pos| ≤ r.width / 2)
    (hl : -(r.length / 2) ≤ rampLocalZ ops r pos ∧ rampLocalZ ops r pos ≤ r.length / 2)
    (hnw : ¬(0 < rampLocalZ ops r pos ∧ ¬rampApproachOk ops r yaw ∧ 0.5 < rampT ops r pos)) :
    (rampGetHeightAt ops [r] pos yaw).height = rampT ops r pos * r.height ∧
    (rampGetHeightAt ops [r] pos yaw).onRamp = true := by
  unfold rampGetHeightAt rampQueryOne
  simp only []
  split_ifs with h1 h2 h3
  · exact absurd h1.2.1 (not_lt.mpr hw)
  · exact absurd h1.2.1 (not_lt.mpr hw)
  · exact ⟨rfl, rfl⟩
  · exact absurd ⟨hw, hl⟩ h3

/-- Witness for the amended C1: the example ramp queried at `t = 1/4`. -/
theorem ramp_height_linear_witness :
    (rampGetHeightAt stubOps [c1Ramp] c1Pos 0).height =
      rampT stubOps c1Ramp c1Pos * c1Ramp.height :=
  (ramp_height_linear stubOps c1Ramp c1Pos 0
    (by norm_num [rampLocalX, stubOps, c1Ramp, c1Pos])
    (by norm_num [rampLocalZ, stubOps, c1Ramp, c1Pos])
    (by norm_num [rampLocalZ, stubOps, c1Ramp, c1Pos])).1

/-- The telemetry epilogue does not change the velocity. -/
theorem accelTick_velocity (dt : ℚ) (st : CarState) : (accelTick dt st).velocity = st.velocity := by
  unfold accelTick
  split_ifs <;> rfl

/-- The telemetry epilogue does not change the airborne flag. -/
theorem accelTick_isAirborne (dt : ℚ) (st : CarState) :
    (accelTick dt st).isAirborne = st.isAirborne := by
  unfold accelTick
  split_ifs <;> rfl

/-- The telemetry epilogue does not change the nitro multiplier. -/
theorem accelTick_nitroMult (dt : ℚ) (st : CarState) :
    (accelTick dt st).nitroBoostMultiplier = st.nitroBoostMultiplier := by
  unfold accelTick
  split_ifs <;> rfl

/-- The nitro-timer update does not move the car. -/
theorem nitroTick_position (dt : ℚ) (st : CarState) :
    (nitroTick dt st).position = st.position := by
  unfold nitroTick
  simp only []
  split_ifs <;> rfl

/-- The grounded branch does not change the nitro multiplier. -/
theorem groundedStep_nitroMult (ops : MathOps) (p : CarSimParams) (dt : ℚ) (input : Input)
    (surface : Surface) (ground : GroundInfo) (st : CarState) :
    (groundedStep ops p dt input surface ground st).nitroBoostMultiplier =
      st.nitroBoostMultiplier := by
  unfold groundedStep
  rfl

/-- Zeroing the vertical component cannot increase the squared norm. -/
theorem setY0_normSq_le (v : Vec3) : Vec3.normSq ⟨v.x, 0, v.z⟩ ≤ v.normSq := by
  simp only [Vec3.normSq]
  nlinarith [sq_nonneg v.y]

/-- After the clamp, zeroing the vertical component keeps the squared speed
within `m²`.  The square-root oracle is only assumed to dominate the exact
root (`q ≤ sqrt q * sqrt q`), which the real function satisfies with
equality. -/
theorem clampVel_y0_normSq_le (ops : MathOps) (v : Vec3) (m : ℚ)
    (hsq : ∀ q : ℚ, 0 < q → q ≤ ops.sqrt q * ops.sqrt q) :
    Vec3.normSq ⟨(clampVel ops v m).x, 0, (clampVel ops v m).z⟩ ≤ m ^ 2 := by
  unfold clampVel
  split_ifs with hc
  · refine le_trans (setY0_normSq_le _) ?_
    rw [scale_normSq]
    have hq : 0 < v.normSq := lt_of_le_of_lt (mul_self_nonneg m) hc
    have hss := hsq v.normSq hq
    set s := ops.sqrt v.normSq with hs_def
    have hs0 : s ≠ 0 := by
      intro h0
      rw [h0, mul_zero] at hss
      linarith
    have key : (m / s) ^ 2 * (s * s) = m ^ 2 := by
      rw [div_pow, show s * s = s ^ 2 by ring,
        div_mul_cancel₀ _ (pow_ne_zero 2 hs0)]
    calc (m / s) ^ 2 * v.normSq ≤ (m / s) ^ 2 * (s * s) :=
          mul_le_mul_of_nonneg_left hss (sq_nonneg _)
      _ = m ^ 2 := key
  · exact le_trans (setY0_normSq_le v) (by nlinarith [not_lt.mp hc])

/-- Velocity bound for a grounded tick without a ramp launch: the vertical
component is zeroed after the horizontal clamp, so the squared speed stays
within the (nitro-scaled) limit. -/
theorem groundedStep_normSq_le (ops : MathOps) (p : CarSimParams) (dt : ℚ) (input : Input)
    (surface : Surface) (ground : GroundInfo) (st : CarState)
    (hsq : ∀ q : ℚ, 0 < q → q ≤ ops.sqrt q * ops.sqrt q)
    (hnl : ¬ launchCond ops p dt input surface ground st) :
    (groundedStep ops p dt input surface ground st).velocity.normSq ≤ nitroMax p st ^ 2 := by
  show (groundedVelocity ops p dt input surface ground st).normSq ≤ nitroMax p st ^ 2
  unfold groundedVelocity
  simp only []
  rw [if_neg hnl]
  split_ifs with hr
  · exact clampVel_y0_normSq_le ops _ _ hsq
  · exact clampVel_y0_normSq_le ops _ _ hsq

/-- Counterexample to claim C2: in the airborne branch gravity is applied to
the vertical velocity with no speed clamp.  Flying level at exactly
`maxSpeed` (88, satisfying the claimed invariant), one airborne tick leaves
`|velocity| > maxSpeed` with nitro inactive. -/
theorem speed_invariant_cex :
    Vec3.normSq c2CexState.velocity ≤ gameParams.maxSpeed ^ 2 ∧
    (CarSim.update stubOps gameParams (1 / 120) zeroInput onTrackSurface flatGround
        c2CexState).nitroBoostMultiplier = 1 ∧
    (gameParams.maxSpeed *
        (if 1 < (CarSim.update stubOps gameParams (1 / 120) zeroInput onTrackSurface flatGround
            c2CexState).nitroBoostMultiplier then (1.5 : ℚ) else 1)) ^ 2 <
      (CarSim.update stubOps gameParams (1 / 120) zeroInput onTrackSurface flatGround
        c2CexState).velocity.normSq := by
  norm_num [CarSim.update, nitroTick, accelTick, airborneStep, c2CexState, resetState,
    stubOps, gameParams, zeroInput, onTrackSurface, flatGround,
    Vec3.normSq, Vec3.add, Vec3.sub, Vec3.scale, Vec3.dot]

/-- Claim C2 (amended): after a tick handled by the grounded branch in which
the ramp-launch condition does not fire, the squared speed satisfies
`|velocity|² ≤ (maxSpeed * (nitroMultiplier > 1 ? 1.5 : 1))²`.  (The bound
does not hold for airborne ticks, where gravity accumulates vertical speed
unclamped, nor on launch ticks, where the launch velocity is written after
the clamp.) -/
theorem grounded_speed_clamped (ops : MathOps) (p : CarSimParams) (dt : ℚ) (input : Input)
    (surface : Surface) (ground : GroundInfo) (st : CarState)
    (hsq : ∀ q : ℚ, 0 < q → q ≤ ops.sqrt q * ops.sqrt q)
    (hg : (nitroTick dt st).position.y ≤ ground.height + 0.55 + 0.1)
    (hnl : ¬ launchCond ops p dt input surface ground (nitroTick dt st)) :
    (CarSim.update ops p dt input surface ground st).velocity.normSq ≤
      (p.maxSpeed *
        (if 1 < (CarSim.update ops p dt input surface ground st).nitroBoostMultiplier
          then 1.5 else 1)) ^ 2 := by
  unfold CarSim.update
  simp only []
  rw [if_neg (not_lt.mpr hg)]
  rw [accelTick_velocity, accelTick_nitroMult, groundedStep_nitroMult]
  exact groundedStep_normSq_le ops p dt input surface ground (nitroTick dt st) hsq hnl

/-- Witness for the amended C2: one tick from rest on flat ground with the
game tuning stays within the speed limit. -/
theorem grounded_speed_clamped_witness :
    (CarSim.update stubOps gameParams (1 / 120) zeroInput onTrackSurface flatGround
        resetState).velocity.normSq ≤
      (gameParams.maxSpeed *
        (if 1 < (CarSim.update stubOps gameParams (1 / 120) zeroInput onTrackSurface flatGround
            resetState).nitroBoostMultiplier then 1.5 else 1)) ^ 2 :=
  grounded_speed_clamped stubOps gameParams (1 / 120) zeroInput onTrackSurface flatGround
    resetState
    (by
      intro q hq
      simp only [stubOps]
      split_ifs with h1 h2 h3
      · subst h1; norm_num
      · subst h2; norm_num
      · subst h3; norm_num
      · rcases le_or_lt q 1 with h | h
        · rw [max_eq_right h]; linarith
        · rw [max_eq_left h.le]; nlinarith)
    (by norm_num [nitroTick, resetState, flatGround])
    (by
      intro hlc
      exact absurd hlc.1 (by norm_num [flatGround]))

/-- Without a ramp launch, the grounded branch writes a zero vertical
velocity (both the on-ramp and the flat-ground arm write `y = 0`). -/
theorem groundedVelocity_y_no_launch (ops : MathOps) (p : CarSimParams) (dt : ℚ)
    (input : Input) (surface : Surface) (ground : GroundInfo) (st : CarState)
    (hnl : ¬ launchCond ops p dt input surface ground st) :
    (groundedVelocity ops p dt input surface ground st).y = 0 := by
  unfold groundedVelocity
  simp only []
  rw [if_neg hnl]
  split_ifs <;> rfl

/-- On a launch tick the grounded branch writes the launch velocity. -/
theorem groundedVelocity_y_launch (ops : MathOps) (p : CarSimParams) (dt : ℚ)
    (input : Input) (surface : Surface) (ground : GroundInfo) (st : CarState)
    (hl : launchCond ops p dt input surface ground st) :
    (groundedVelocity ops p dt input surface ground st).y =
      max (groundedVF2 ops p dt input surface st * ops.sin ground.rampAngle * 0.55) 3 := by
  unfold groundedVelocity
  simp only []
  rw [if_pos hl]

/-- On a launch tick the grounded branch flips the airborne flag. -/
theorem groundedStep_isAirborne_launch (ops : MathOps) (p : CarSimParams) (dt : ℚ)
    (input : Input) (surface : Surface) (ground : GroundInfo) (st : CarState)
    (hl : launchCond ops p dt input surface ground st) :
    (groundedStep ops p dt input surface ground st).isAirborne = true := by
  show (if launchCond ops p dt input surface ground st then true else false) = true
  rw [if_pos hl]

/-- Counterexample to claim C3: a vehicle that lands exactly on a ramp's
launch edge while fast enough relaunches in the same tick, so the vertical
velocity immediately after the Airborne→Grounded transition is the launch
velocity (here `3`), not zero. -/
theorem landing_zero_velocity_cex :
    c3CexState.isAirborne = true ∧
    c3CexState.position.y ≤ c3Ground.height + 0.55 ∧
    (CarSim.update stubOps gameParams (1 / 120) zeroInput onTrackSurface c3Ground
        c3CexState).velocity.y = 3 ∧
    (CarSim.update stubOps gameParams (1 / 120) zeroInput onTrackSurface c3Ground
        c3CexState).velocity.y ≠ 0 := by
  norm_num [CarSim.update, nitroTick, accelTick, groundedStep, groundedVelocity,
    groundedTmpVel, clampVel, nitroMax, launchCond, groundedVF2, groundedVR2,
    groundedYaw, groundedSteer, gripOf, landedVelocity, jsign, c3CexState, c3Ground,
    resetState, stubOps, gameParams, zeroInput, onTrackSurface,
    Vec3.normSq, Vec3.add, Vec3.sub, Vec3.scale, Vec3.dot]

/-- Claim C3 (amended): on every tick that enters the grounded branch from
the air (`isAirborne = true`, `position.y ≤ ground.height + carHeight`), the
vertical velocity is exactly zero after the update — unless the ramp-launch
condition fires on that same tick, in which case the launch velocity is
written instead.  This holds regardless of how long the vehicle was airborne
(the `airTime > 0.1` landing guard only skips the landing-speed bookkeeping,
not the zeroing, which the grounded branch performs in every non-launch
arm). -/
theorem landing_zero_velocity_no_launch (ops : MathOps) (p : CarSimParams) (dt : ℚ)
    (input : Input) (surface : Surface) (ground : GroundInfo) (st : CarState)
    (hair : st.isAirborne = true)
    (hy : st.position.y ≤ ground.height + 0.55)
    (hnl : ¬ launchCond ops p dt input surface ground (nitroTick dt st)) :
    (CarSim.update ops p dt input surface ground st).velocity.y = 0 := by
  have _ := hair
  have hg : ¬ (ground.height + 0.55 + 0.1 < (nitroTick dt st).position.y) := by
    rw [nitroTick_position]
    push_neg
    linarith
  unfold CarSim.update
  simp only []
  rw [if_neg hg, accelTick_velocity]
  exact groundedVelocity_y_no_launch ops p dt input surface ground (nitroTick dt st) hnl

/-- Witness for the amended C3: landing on flat ground (no ramp) from the
airborne state zeroes the vertical velocity. -/
theorem landing_zero_velocity_no_launch_witness :
    (CarSim.update stubOps gameParams (1 / 120) zeroInput onTrackSurface flatGround
        c3CexState).velocity.y = 0 :=
  landing_zero_velocity_no_launch stubOps gameParams (1 / 120) zeroInput onTrackSurface
    flatGround c3CexState (by norm_num [c3CexState, resetState])
    (by norm_num [c3CexState, resetState, flatGround])
    (fun hlc => absurd hlc.1 (by norm_num [flatGround]))

/-- Claim C6: in the grounded branch, when `groundInfo` reports a ramp
launch edge (`onRamp`, `atRampEdge`, nonzero `rampAngle`) and the
post-acceleration forward speed `vF2` exceeds 8, the new vertical velocity
is exactly `max(vF2 * sin(rampAngle) * 0.55, 3)` and the vehicle becomes
airborne in the same tick; on a ramp or bridge surface away from the edge
the vertical velocity is forced to zero. -/
theorem ramp_launch_correct (ops : MathOps) (p : CarSimParams) (dt : ℚ) (input : Input)
    (surface : Surface) (ground : GroundInfo) (st : CarState)
    (hg : st.position.y ≤ ground.height + 0.55 + 0.1) :
    (launchCond ops p dt input surface ground (nitroTick dt st) →
      (CarSim.update ops p dt input surface ground st).velocity.y =
        max (groundedVF2 ops p dt input surface (nitroTick dt st) *
          ops.sin ground.rampAngle * 0.55) 3 ∧
      (CarSim.update ops p dt input surface ground st).isAirborne = true) ∧
    (ground.onRamp = true ∧ ground.atRampEdge = false →
      (CarSim.update ops p dt input surface ground st).velocity.y = 0) := by
  have hgb : ¬ (ground.height + 0.55 + 0.1 < (nitroTick dt st).position.y) := by
    rw [nitroTick_position]
    push_neg
    exact hg
  constructor
  · intro hl
    constructor
    · unfold CarSim.update
      simp only []
      rw [if_neg hgb, accelTick_velocity]
      exact groundedVelocity_y_launch ops p dt input surface ground (nitroTick dt st) hl
    · unfold CarSim.update
      simp only []
      rw [if_neg hgb, accelTick_isAirborne]
      exact groundedStep_isAirborne_launch ops p dt input surface ground (nitroTick dt st) hl
  · intro hedge
    unfold CarSim.update
    simp only []
    rw [if_neg hgb, accelTick_velocity]
    refine groundedVelocity_y_no_launch ops p dt input surface ground (nitroTick dt st) ?_
    intro hlc
    have h2 : ground.atRampEdge = true := hlc.2.1
    rw [hedge.2] at h2
    exact absurd h2 (by simp)

/-- Witness for C6: the game params at 20 m/s on a `rampAngle = 0.3` launch
edge (forward speed after drag is `19.885 > 8`) flip the vehicle airborne. -/
theorem ramp_launch_correct_witness :
    (CarSim.update stubOps gameParams (1 / 120) zeroInput onTrackSurface c3Ground
        c6State).isAirborne = true :=
  ((ramp_launch_correct stubOps gameParams (1 / 120) zeroInput onTrackSurface c3Ground
      c6State (by norm_num [c6State, resetState, c3Ground])).1
    (by
      refine ⟨by norm_num [c3Ground], by norm_num [c3Ground], by norm_num [c3Ground], ?_⟩
      norm_num [groundedVF2, landedVelocity, nitroTick, jsign, c6State, resetState,
        stubOps, gameParams, zeroInput, onTrackSurface, Vec3.dot])).2

/-- The grounded branch writes `groundedVelocity` as the new velocity. -/
theorem groundedStep_velocity (ops : MathOps) (p : CarSimParams) (dt : ℚ) (input : Input)
    (surface : Surface) (ground : GroundInfo) (st : CarState) :
    (groundedStep ops p dt input surface ground st).velocity =
      groundedVelocity ops p dt input surface ground st := rfl

/-- The grounded branch writes `groundedYaw` as the new yaw. -/
theorem groundedStep_yawRad (ops : MathOps) (p : CarSimParams) (dt : ℚ) (input : Input)
    (surface : Surface) (ground : GroundInfo) (st : CarState) :
    (groundedStep ops p dt input surface ground st).yawRad =
      groundedYaw ops p dt input surface st := rfl

/-- The grounded branch writes `groundedSteer` as the smoothed steering. -/
theorem groundedStep_steer (ops : MathOps) (p : CarSimParams) (dt : ℚ) (input : Input)
    (surface : Surface) (ground : GroundInfo) (st : CarState) :
    (groundedStep ops p dt input surface ground st).steerSmoothed =
      groundedSteer dt input st := rfl

/-- The grounded branch resets the air timer. -/
theorem groundedStep_airTime (ops : MathOps) (p : CarSimParams) (dt : ℚ) (input : Input)
    (surface : Surface) (ground : GroundInfo) (st : CarState) :
    (groundedStep ops p dt input surface ground st).airTime = 0 := rfl

/-- The grounded branch keeps the nitro timer. -/
theorem groundedStep_nitroTime (ops : MathOps) (p : CarSimParams) (dt : ℚ) (input : Input)
    (surface : Surface) (ground : GroundInfo) (st : CarState) :
    (groundedStep ops p dt input surface ground st).nitroBoostTimeRemaining =
      st.nitroBoostTimeRemaining := rfl

/-- The grounded branch sets the airborne flag from the launch condition. -/
theorem groundedStep_isAirborne (ops : MathOps) (p : CarSimParams) (dt : ℚ) (input : Input)
    (surface : Surface) (ground : GroundInfo) (st : CarState) :
    (groundedStep ops p dt input surface ground st).isAirborne =
      (if launchCond ops p dt input surface ground st then true else false) := rfl

/-- Vertical position after the grounded branch: integrate then clamp to the
ground height. -/
theorem groundedStep_posY (ops : MathOps) (p : CarSimParams) (dt : ℚ) (input : Input)
    (surface : Surface) (ground : GroundInfo) (st : CarState) :
    (groundedStep ops p dt input surface ground st).position.y =
      max (ground.height + 0.55)
        (st.position.y + (groundedVelocity ops p dt input surface ground st).y * dt) := rfl

/-- Basis vectors after the grounded branch come from the integrated yaw. -/
theorem groundedStep_basis (ops : MathOps) (p : CarSimParams) (dt : ℚ) (input : Input)
    (surface : Surface) (ground : GroundInfo) (st : CarState) :
    (groundedStep ops p dt input surface ground st).forwardVec =
      ⟨ops.sin (groundedYaw ops p dt input surface st), 0,
        ops.cos (groundedYaw ops p dt input surface st)⟩ ∧
    (groundedStep ops p dt input surface ground st).rightVec =
      ⟨ops.cos (groundedYaw ops p dt input surface st), 0,
        -(ops.sin (groundedYaw ops p dt input surface st))⟩ := ⟨rfl, rfl⟩

/-- Below the low-speed cutoff `0.1` the drag recurrence freezes. -/
theorem dragStep_frozen (v : ℚ) (h1 : 0 < v) (h2 : v ≤ 0.1) : dragStep v = v := by
  unfold dragStep
  rw [abs_of_pos h1, if_neg (not_lt.mpr h2)]
  ring

/-- Above the cutoff the drag recurrence strictly decreases. -/
theorem dragStep_lt (v : ℚ) (h1 : 0.1 < v) (h2 : v ≤ 20) : dragStep v < v := by
  have h0 : 0 < v := lt_trans (by norm_num) h1
  have _ := h2
  unfold dragStep jsign
  rw [abs_of_pos h0, if_pos h1, if_pos h0,
    show gameParams.drag = 3 / 250 by norm_num [gameParams], show gameParams.rolling = 9 / 20 by norm_num [gameParams]]
  split_ifs with hb <;> nlinarith

/-- The drag recurrence keeps the speed positive (for the game tuning and a
start below 20 the per-tick decrement is far smaller than the speed). -/
theorem dragStep_pos (v : ℚ) (h1 : 0 < v) (h2 : v ≤ 20) : 0 < dragStep v := by
  rcases le_or_lt v 0.1 with hc | hc
  · rw [dragStep_frozen v h1 hc]
    exact h1
  · unfold dragStep jsign
    rw [abs_of_pos h1, if_pos hc, if_pos h1,
      show gameParams.drag = 3 / 250 by norm_num [gameParams],
      show gameParams.rolling = 9 / 20 by norm_num [gameParams]]
    split_ifs with hb <;> nlinarith

/-- The drag recurrence never increases the speed. -/
theorem dragStep_le (v : ℚ) (h1 : 0 < v) (h2 : v ≤ 20) : dragStep v ≤ v := by
  rcases le_or_lt v 0.1 with hc | hc
  · rw [dragStep_frozen v h1 hc]
  · exact le_of_lt (dragStep_lt v hc h2)

/-- The telemetry epilogue preserves every field the drag invariant tracks. -/
theorem C5Shape_accelTick (dt : ℚ) (st : CarState) (v : ℚ) (h : C5Shape st v) :
    C5Shape (accelTick dt st) v := by
  unfold accelTick
  split_ifs <;> exact h

/-- One tick of the drag scenario: under zero input on flat on-track ground
the forward speed follows exactly the 1-D recurrence `dragStep`, and all the
state the recurrence depends on is preserved.  Trigonometric oracles are
pinned only at the arguments actually used (`0`, and `atan2 0 x` for
positive `x`). -/
theorem c5_step (ops : MathOps)
    (hsin : ops.sin 0 = 0) (hcos : ops.cos 0 = 1) (htan : ops.tan 0 = 0)
    (hatan : ∀ x : ℚ, 0 < x → ops.atan2 0 x = 0)
    (st : CarState) (v : ℚ) (hsh : C5Shape st v) (hv : 0 < v) (hv20 : v ≤ 20) :
    C5Shape (CarSim.update ops gameParams (1 / 120) zeroInput onTrackSurface flatGround st)
      (dragStep v) := by
  obtain ⟨hvel, hyaw, hsteer, hposy, hair, hairt, hmul, hrem, hfwd, hrgt⟩ := hsh
  have hnt : nitroTick (1 / 120) st = st := by
    unfold nitroTick
    rw [hrem]
    norm_num
  have hland : landedVelocity st = ⟨0, 0, v⟩ := by
    unfold landedVelocity
    simp [hair, hvel]
  have hsteer1 : groundedSteer (1 / 120) zeroInput st = 0 := by
    unfold groundedSteer
    rw [hsteer]
    norm_num [zeroInput]
  have hvF : (landedVelocity st).dot ⟨ops.sin st.yawRad, 0, ops.cos st.yawRad⟩ = v := by
    rw [hland, hyaw, hsin, hcos]
    norm_num [Vec3.dot]
  have hvR : (landedVelocity st).dot ⟨ops.cos st.yawRad, 0, -(ops.sin st.yawRad)⟩ = 0 := by
    rw [hland, hyaw, hsin, hcos]
    norm_num [Vec3.dot]
  have hyaw1 : groundedYaw ops gameParams (1 / 120) zeroInput onTrackSurface st = 0 := by
    unfold groundedYaw
    rw [hsteer1, hyaw]
    simp [htan]
  have hvR2 : groundedVR2 ops gameParams (1 / 120) zeroInput onTrackSurface st = 0 := by
    unfold groundedVR2
    rw [hvF, hvR]
    simp [hatan (|v| + 1) (by positivity)]
  have hvf2 : groundedVF2 ops gameParams (1 / 120) zeroInput onTrackSurface st = dragStep v := by
    unfold groundedVF2 dragStep
    rw [hvF]
    norm_num [zeroInput, onTrackSurface, gameParams, abs_of_pos hv]
  have hnl : ¬ launchCond ops gameParams (1 / 120) zeroInput onTrackSurface flatGround st := by
    intro h
    exact absurd h.1 (by norm_num [flatGround])
  have hdp := dragStep_pos v hv hv20
  have hdle := dragStep_le v hv hv20
  have htmp : groundedTmpVel ops gameParams (1 / 120) zeroInput onTrackSurface st =
      ⟨0, 0, dragStep v⟩ := by
    unfold groundedTmpVel
    rw [hyaw1]
    simp only [hvf2, hvR2, hsin, hcos]
    norm_num [Vec3.scale, Vec3.add]
  have hclamp : clampVel ops ⟨0, 0, dragStep v⟩ (nitroMax gameParams st) =
      ⟨0, 0, dragStep v⟩ := by
    unfold clampVel nitroMax
    rw [hmul]
    rw [if_neg (by norm_num [Vec3.normSq, gameParams]; nlinarith)]
  have hgv : groundedVelocity ops gameParams (1 / 120) zeroInput onTrackSurface flatGround st =
      ⟨0, 0, dragStep v⟩ := by
    unfold groundedVelocity
    simp only []
    rw [if_neg hnl, htmp, hclamp]
    norm_num [flatGround]
  unfold CarSim.update
  simp only []
  rw [hnt]
  rw [if_neg (show ¬ (flatGround.height + 0.55 + 0.1 < st.position.y) by
    rw [hposy]; norm_num [flatGround])]
  refine C5Shape_accelTick _ _ _ ?_
  refine ⟨?_, ?_, ?_, ?_, ?_, ?_, ?_, ?_, ?_, ?_⟩
  · rw [groundedStep_velocity, hgv]
  · rw [groundedStep_yawRad, hyaw1]
  · rw [groundedStep_steer, hsteer1]
  · rw [groundedStep_posY, hgv, hposy]
    norm_num [flatGround]
  · rw [groundedStep_isAirborne, if_neg hnl]
  · rw [groundedStep_airTime]
  · rw [groundedStep_nitroMult, hmul]
  · rw [groundedStep_nitroTime, hrem]
  · rw [(groundedStep_basis ops gameParams (1 / 120) zeroInput onTrackSurface flatGround st).1,
      hyaw1, hsin, hcos]
  · rw [(groundedStep_basis ops gameParams (1 / 120) zeroInput onTrackSurface flatGround st).2,
      hyaw1, hsin, hcos]
    norm_num [Vec3.mk.injEq]

/-- Every state of the drag trajectory keeps the invariant shape, with a
forward speed in `(0, 20]` given by the 1-D recurrence. -/
theorem c5_invariant (ops : MathOps)
    (hsin : ops.sin 0 = 0) (hcos : ops.cos 0 = 1) (htan : ops.tan 0 = 0)
    (hatan : ∀ x : ℚ, 0 < x → ops.atan2 0 x = 0) :
    ∀ n : ℕ, C5Shape (c5Traj ops n) (dragIter n) ∧ 0 < dragIter n ∧ dragIter n ≤ 20 := by
  intro n
  induction n with
  | zero =>
    refine ⟨?_, by norm_num [dragIter], by norm_num [dragIter]⟩
    unfold c5Traj C5Shape c5Init resetState dragIter
    norm_num
  | succ k ih =>
    obtain ⟨hsh, hp, hle⟩ := ih
    have htraj : c5Traj ops (k + 1) =
        CarSim.update ops gameParams (1 / 120) zeroInput onTrackSurface flatGround
          (c5Traj ops k) := by
      unfold c5Traj
      rw [Function.iterate_succ_apply']
    have hiter : dragIter (k + 1) = dragStep (dragIter k) := by
      unfold dragIter
      rw [Function.iterate_succ_apply']
    refine ⟨?_, ?_, ?_⟩
    · rw [htraj, hiter]
      exact c5_step ops hsin hcos htan hatan _ _ hsh hp hle
    · rw [hiter]
      exact dragStep_pos _ hp hle
    · rw [hiter]
      exact le_trans (dragStep_le _ hp hle) hle

/-- The forward-speed getter on the drag trajectory equals the recurrence. -/
theorem c5_forwardSpeed (ops : MathOps)
    (hsin : ops.sin 0 = 0) (hcos : ops.cos 0 = 1) (htan : ops.tan 0 = 0)
    (hatan : ∀ x : ℚ, 0 < x → ops.atan2 0 x = 0) (n : ℕ) :
    forwardSpeedMps (c5Traj ops n) = dragIter n := by
  obtain ⟨⟨hvel, _, _, _, _, _, _, _, hfwd, _⟩, _, _⟩ := c5_invariant ops hsin hcos htan hatan n
  unfold forwardSpeedMps
  rw [hvel, hfwd]
  norm_num [Vec3.dot]

/-- Counterexample to claim C5: starting from forward speed 20 with zero
input on flat on-track ground, the forward speed NEVER reaches 0: drag is
disabled below speed `0.1` (the `speed > 0.1` guard), so the speed stays
positive forever, contradicting "decreases until it reaches 0 and stays at 0". -/
theorem drag_never_reaches_zero_cex :
    ¬ ∃ n : ℕ, forwardSpeedMps (c5Traj stubOps n) = 0 := by
  rintro ⟨n, hn⟩
  have hpos := (c5_invariant stubOps rfl rfl rfl (fun _ _ => rfl) n).2.1
  have heq := c5_forwardSpeed stubOps rfl rfl rfl (fun _ _ => rfl) n
  rw [heq] at hn
  rw [hn] at hpos
  exact lt_irrefl 0 hpos

/-- Claim C5 (amended): starting at forward speed 20 with zero input on flat
on-track ground, the forward speed stays in `(0, 20]`, strictly decreases
tick-over-tick while it exceeds the low-speed drag cutoff `0.1`, and once at
or below `0.1` stays frozen at that positive value forever — it never
reaches 0 and never becomes negative. -/
theorem drag_decreases_until_cutoff (ops : MathOps)
    (hsin : ops.sin 0 = 0) (hcos : ops.cos 0 = 1) (htan : ops.tan 0 = 0)
    (hatan : ∀ x : ℚ, 0 < x → ops.atan2 0 x = 0) :
    ∀ n : ℕ,
      0 < forwardSpeedMps (c5Traj ops n) ∧
      forwardSpeedMps (c5Traj ops n) ≤ 20 ∧
      (0.1 < forwardSpeedMps (c5Traj ops n) →
        forwardSpeedMps (c5Traj ops (n + 1)) < forwardSpeedMps (c5Traj ops n)) ∧
      (forwardSpeedMps (c5Traj ops n) ≤ 0.1 →
        forwardSpeedMps (c5Traj ops (n + 1)) = forwardSpeedMps (c5Traj ops n)) := by
  intro n
  have heq := c5_forwardSpeed ops hsin hcos htan hatan n
  have heq1 := c5_forwardSpeed ops hsin hcos htan hatan (n + 1)
  obtain ⟨_, hp, hle⟩ := c5_invariant ops hsin hcos htan hatan n
  have hiter : dragIter (n + 1) = dragStep (dragIter n) := by
    unfold dragIter
    rw [Function.iterate_succ_apply']
  rw [heq, heq1, hiter]
  exact ⟨hp, hle, fun hc => dragStep_lt _ hc hle, fun hc => dragStep_frozen _ hp hc⟩

/-- Witness for the amended C5 at the concrete oracle `stubOps`, tick 0. -/
theorem drag_decreases_until_cutoff_witness :
    0 < forwardSpeedMps (c5Traj stubOps 0) ∧
    forwardSpeedMps (c5Traj stubOps 1) < forwardSpeedMps (c5Traj stubOps 0) :=
  ⟨(drag_decreases_until_cutoff stubOps rfl rfl rfl (fun _ _ => rfl) 0).1,
   (drag_decreases_until_cutoff stubOps rfl rfl rfl (fun _ _ => rfl) 0).2.2.1
     (by
       have heq := c5_forwardSpeed stubOps rfl rfl rfl (fun _ _ => rfl) 0
       rw [heq]
       norm_num [dragIter])⟩

end Racing
